import Mathlib

/-!
Shallow embedding of the automqtt routing core (`mqttfs.py`, `handlers.py`,
`__init__.py`).  Pure functions of the Python source are translated into
executable Lean functions; byte payloads are modelled as `String`; raised
exceptions are modelled with `Except Err`.  The POSIX path helpers
(`posixpath.join`, `posixpath.normpath`, `posixpath.split`, `str.split`)
are re-implemented character-by-character following CPython.
-/

namespace Automqtt

/-- Error kinds: Python exception classes raised or caught by the program.
The `String` argument records the diagnostic payload (a rendering of the
path or offending text carried by the Python exception). -/
inductive Err where
  | notFound (s : String)        -- FileNotFoundError
  | notADirectory (s : String)   -- NotADirectoryError
  | isADirectory (s : String)    -- IsADirectoryError
  | valueError (s : String)      -- ValueError
  | keyError (s : String)        -- KeyError
  | jsonDecodeError (s : String) -- json.JSONDecodeError
  | indexError (s : String)      -- IndexError
  deriving DecidableEq, Repr

/-- The routing tree (`_TreeItem` in `mqttfs.py`): a node is either a handler
(`Leaf`, Python: a callable; we reference handlers by a numeric id) or a
directory (`dict[str, _TreeItem]`, modelled as an insertion-ordered
association list). -/
inductive TreeItem where
  | leaf (h : Nat) : TreeItem
  | dir (entries : List (String × TreeItem)) : TreeItem

/-- `callable(item)` on a tree item: true exactly for handlers. -/
def TreeItem.isCallable : TreeItem → Bool
  | .leaf _ => true
  | .dir _ => false

/-- `part in cur` / `cur[part]` for a directory's association list
(first binding wins, as in a Python dict there are no duplicates). -/
def dictGet (entries : List (String × TreeItem)) (k : String) : Option TreeItem :=
  match entries with
  | [] => none
  | (k', v) :: rest => if k' = k then some v else dictGet rest k

/-- Keys of a directory in iteration (insertion) order. -/
def dictKeys (entries : List (String × TreeItem)) : List String :=
  entries.map Prod.fst

/-! ### CPython `posixpath` helpers, character-level -/

/-- Python `str.split(sep)` for a single-character separator, on char lists:
`"a/b".split("/") = ["a","b"]`, `"".split("/") = [""]`. -/
def chSplit (sep : Char) : List Char → List (List Char)
  | [] => [[]]
  | c :: cs =>
    let r := chSplit sep cs
    if c = sep then [] :: r
    else
      match r with
      | [] => [[c]]
      | g :: gs => (c :: g) :: gs

/-- `posixpath.join(a, *p)` for one extra component `b`:
if `b` starts with the separator it replaces the path; if the path is empty
or ends with the separator, `b` is appended; otherwise a separator is
inserted. -/
def pyJoin2 (path b : String) : String :=
  if b.toList.head? = some '/' then b
  else if path.toList = [] ∨ path.toList.getLast? = some '/' then path ++ b
  else path ++ "/" ++ b

/-- `posixpath.join(a, *rest)` folded over all segments. -/
def pyJoin : List String → String
  | [] => ""
  | a :: rest => rest.foldl pyJoin2 a

/-- Drop trailing separators (`head.rstrip(sep)`). -/
def rstripSep (l : List Char) : List Char :=
  (l.reverse.dropWhile (fun c => c = '/')).reverse

/-- `posixpath.split(p)`: split after the last separator, then strip the
head's trailing separators unless the head is all separators. -/
def pySplitPath (l : List Char) : List Char × List Char :=
  let tail := (l.reverse.takeWhile (fun c => ¬ c = '/')).reverse
  let head := l.take (l.length - tail.length)
  let head' := if head ≠ [] ∧ ¬ head.all (fun c => c = '/') then rstripSep head else head
  (head', tail)

/-- The loop body of `MQTTPath.__parts`: repeatedly `posixpath.split` the
head, collecting tails; the Python loop runs while the head is non-empty
(and diverges on an all-separator head, which none of our inputs produce).
`fuel` bounds the iterations; `length + 1` steps suffice whenever the
Python loop terminates, because each iteration strictly shortens the head. -/
def pyPartsAux : Nat → List Char → List (List Char) → List (List Char)
  | 0, _, acc => acc
  | fuel + 1, head, acc =>
    if head = [] then acc
    else
      let (h, t) := pySplitPath head
      pyPartsAux fuel h (t :: acc)

/-- `MQTTPath.__parts(path)`: the list of path components produced by
repeated `posixpath.split`, in order. -/
def pyParts (s : String) : List String :=
  (pyPartsAux (s.length + 1) s.toList []).map (fun l => String.mk l)

/-- `posixpath.normpath(path)`: collapse empty and `.` components, resolve
`..` against preceding components, preserve leading slashes (1 or 2), and
return `"."` for an empty result. -/
def normpath (s : String) : String :=
  if s = "" then "."
  else
    let l := s.toList
    let initialSlashes : Nat :=
      if l.head? = some '/' then
        if l.take 2 = ['/', '/'] ∧ ¬ l.take 3 = ['/', '/', '/'] then 2 else 1
      else 0
    let comps := chSplit '/' l
    let newComps := comps.foldl
      (fun acc comp =>
        if comp = [] ∨ comp = ['.'] then acc
        else if comp ≠ ['.', '.'] ∨ (initialSlashes = 0 ∧ acc = [])
                ∨ (acc ≠ [] ∧ acc.getLast? = some ['.', '.']) then
          acc ++ [comp]
        else if acc ≠ [] then acc.dropLast
        else acc)
      []
    let joined := List.intercalate ['/'] newComps
    let res := List.replicate initialSlashes '/' ++ joined
    if res = [] then "." else String.mk res

/-! ### `MQTTPath` (`mqttfs.py`) -/

/-- `MQTTPath`: a tree reference plus the raw path segments passed to the
constructor.  Python compares the tree by object identity (`is`); we model
identity with an explicit `treeId` tag alongside the tree's contents. -/
structure MQTTPath where
  treeId : Nat
  tree : TreeItem
  segments : List String

/-- `MQTTPath.__str__`: `posixpath.join(*segments)` when there is at least
one segment, `""` otherwise. -/
def strOf (p : MQTTPath) : String :=
  if p.segments.length > 0 then pyJoin p.segments else ""

/-- `MQTTPath.__eq__`: same tree instance and equal raw textual form. -/
def pyEq (p q : MQTTPath) : Bool :=
  p.treeId = q.treeId ∧ strOf p = strOf q

/-- `_MQTTPathInfo`: the resolution record built by `MQTTPath.info`.
`parts` is the `parts` list passed to `_MQTTPathInfo.__init__`; `item` is
its `item` argument (`none` models Python's `None`, i.e. a missing path).
The boolean fields `_exists`, `_is_dir`, `_is_file` and the stored
`_handler` / `_children` of the Python class are functions of `item` and
are derived below. -/
structure PInfo where
  parts : List String
  item : Option TreeItem

/-- `_MQTTPathInfo._exists` as set by `__init__`. -/
def PInfo.exists_ (i : PInfo) : Bool := i.item.isSome

/-- `_MQTTPathInfo._is_dir` as set by `__init__`. -/
def PInfo.is_dir (i : PInfo) : Bool :=
  match i.item with
  | some (.dir _) => true
  | _ => false

/-- `_MQTTPathInfo._is_file` as set by `__init__`. -/
def PInfo.is_file (i : PInfo) : Bool :=
  match i.item with
  | some (.leaf _) => true
  | _ => false

/-- `_MQTTPathInfo.handler`: if no handler is stored, raise
`IsADirectoryError` when the node is a directory, else `FileNotFoundError`. -/
def PInfo.handler (i : PInfo) : Except Err Nat :=
  match i.item with
  | some (.leaf h) => .ok h
  | some (.dir _) => .error (.isADirectory (pyJoin i.parts))
  | none => .error (.notFound (pyJoin i.parts))

/-- `_MQTTPathInfo.children`: if no children are stored, raise
`NotADirectoryError` when the node is a file, else `FileNotFoundError`. -/
def PInfo.children (i : PInfo) : Except Err (List String) :=
  match i.item with
  | some (.dir entries) => .ok (dictKeys entries)
  | some (.leaf _) => .error (.notADirectory (pyJoin i.parts))
  | none => .error (.notFound (pyJoin i.parts))

/-- The walking loop of `MQTTPath.info`: for each part other than `"."`
and `"/"`, fail (keeping the FULL `parts` list) if the current node is
callable or lacks the name, else descend; at the end wrap the reached
node. -/
def infoWalk (allParts : List String) (cur : TreeItem) :
    List String → PInfo
  | [] => ⟨allParts, some cur⟩
  | part :: rest =>
    if part ≠ "." ∧ part ≠ "/" then
      match cur with
      | .leaf _ => ⟨allParts, none⟩
      | .dir entries =>
        match dictGet entries part with
        | none => ⟨allParts, none⟩
        | some nxt => infoWalk allParts nxt rest
    else infoWalk allParts cur rest

/-- `MQTTPath.info`: normalize the textual form, split it into parts, and
walk the tree from the root. -/
def MQTTPath.info (p : MQTTPath) : PInfo :=
  let parts := pyParts (normpath (strOf p))
  infoWalk parts p.tree parts

/-- `MQTTPath.exists()` delegated to the info record. -/
def MQTTPath.exists_ (p : MQTTPath) : Bool := p.info.exists_

/-- `MQTTPath.is_dir()` delegated to the info record. -/
def MQTTPath.is_dir (p : MQTTPath) : Bool := p.info.is_dir

/-- `MQTTPath.is_file()` delegated to the info record. -/
def MQTTPath.is_file (p : MQTTPath) : Bool := p.info.is_file

/-- `MQTTPath.with_segments`: new path over the same tree. -/
def MQTTPath.with_segments (p : MQTTPath) (segs : List String) : MQTTPath :=
  ⟨p.treeId, p.tree, segs⟩

/-- `MQTTPath.resolve()`: a new path whose segments are the info record's
`_parts`. -/
def MQTTPath.resolve (p : MQTTPath) : MQTTPath :=
  p.with_segments p.info.parts

/-- `pathlib_abc` path division `p / key`:
`with_segments(str(self), key)`. -/
def MQTTPath.div (p : MQTTPath) (key : String) : MQTTPath :=
  p.with_segments [strOf p, key]

/-- `MQTTPath.iterdir()`: when the root tree reference is not callable,
build the child generator — whose outer iterable `self.info.children` is
evaluated eagerly, so its classification error is raised here; when the
root tree reference is itself a handler, return the empty tuple. -/
def MQTTPath.iterdir (p : MQTTPath) : Except Err (List MQTTPath) :=
  if ¬ p.tree.isCallable then
    (p.info.children).map (fun names => names.map (fun n => p.div n))
  else
    .ok []

/-! ### `_FsCache` (`handlers.py`) -/

/-- `_Kind` in `handlers.py`. -/
inductive Kind where
  | FILE
  | DIR
  | MISSING
  deriving DecidableEq, Repr

/-- The classification computed by `_FsCache._cache` on a miss:
not exists → `MISSING`; is_dir → `DIR`; otherwise `FILE`. -/
def classifyKind (p : MQTTPath) : Kind :=
  if ¬ p.exists_ then .MISSING
  else if p.is_dir then .DIR
  else .FILE

/-- The `_FsCache._kind_cache` dictionary.  Python keys it by `_MQTTPath`
values whose hash is `hash(str(self))` and whose equality requires the same
tree instance and the same raw text, so the effective key is
`(tree identity, str(path))`. -/
abbrev CacheState : Type := List ((Nat × String) × Kind)

/-- Dictionary lookup in the cache. -/
def cacheLookup (c : CacheState) (p : MQTTPath) : Option Kind :=
  match c with
  | [] => none
  | (k, v) :: rest =>
    if k = (p.treeId, strOf p) then some v else cacheLookup rest p

/-- `_FsCache._cache(path)`: return the stored kind on a hit; on a miss
classify the path, store and return the result.  Returns the kind together
with the updated cache dictionary. -/
def fsCache (c : CacheState) (p : MQTTPath) : Kind × CacheState :=
  match cacheLookup c p with
  | some k => (k, c)
  | none =>
    let k := classifyKind p
    (k, ((p.treeId, strOf p), k) :: c)

/-- `_FsCache.check_dir(path)`. -/
def check_dir (c : CacheState) (p : MQTTPath) : Bool × CacheState :=
  let (k, c') := fsCache c p
  (k = Kind.DIR, c')

/-- `_FsCache.check_file(path)`. -/
def check_file (c : CacheState) (p : MQTTPath) : Bool × CacheState :=
  let (k, c') := fsCache c p
  (k = Kind.FILE, c')

/-- `_FsCache.check_exists(path)`. -/
def check_exists (c : CacheState) (p : MQTTPath) : Bool × CacheState :=
  let (k, c') := fsCache c p
  (¬ k = Kind.MISSING, c')

/-- A cache state all of whose entries agree with direct classification of
the trees they were computed from (`trees` maps each tree identity to its
contents; the routing table is immutable, so classification is a pure
function of the identity's contents and the path text). -/
def CacheConsistent (trees : Nat → TreeItem) (c : CacheState) : Prop :=
  ∀ tid s k, ((tid, s), k) ∈ c →
    k = classifyKind ⟨tid, trees tid, [s]⟩

/-- Cache states reachable from the empty initial dictionary by a sequence
of `_FsCache._cache` queries on paths whose tree reference matches their
identity. -/
inductive Reachable (trees : Nat → TreeItem) : CacheState → Prop where
  | init : Reachable trees []
  | step (c : CacheState) (p : MQTTPath) :
      Reachable trees c → p.tree = trees p.treeId →
      Reachable trees (fsCache c p).2

/-! ### Handlers (`handlers.py`) -/

/-- One `client.publish(topic, payload, retain, qos)` call. -/
structure Pub where
  topic : String
  payload : String
  retain : Bool
  deriving DecidableEq, Repr

/-- An inbound MQTT message (`msg.topic`, `msg.payload`); payload bytes are
modelled as text. -/
structure Msg where
  topic : String
  payload : String
  deriving DecidableEq, Repr

/-- The digit-accumulating core of Python `int(text)`. -/
def natOfDigitsAux : List Char → Nat → Option Nat
  | [], acc => some acc
  | c :: cs, acc =>
    if c.isDigit then natOfDigitsAux cs (acc * 10 + (c.toNat - '0'.toNat))
    else none

/-- A non-empty all-digit string's numeric value, else `none`. -/
def natOfDigits : List Char → Option Nat
  | [] => none
  | l => natOfDigitsAux l 0

/-- Python `int(text)`: an optional sign followed by digits; anything else
raises `ValueError`. -/
def pyInt (s : String) : Except Err Int :=
  let core : Option Int :=
    match s.toList with
    | '-' :: rest => (natOfDigits rest).map (fun n => -(n : Int))
    | '+' :: rest => (natOfDigits rest).map (fun n => (n : Int))
    | l => (natOfDigits l).map (fun n => (n : Int))
  match core with
  | some n => .ok n
  | none => .error (.valueError s)

/-- `all_equal(iterable)`: `groupby` yields at most one group, i.e. the
sequence is empty or every element equals the first. -/
def all_equal (l : List Int) : Bool :=
  match l with
  | [] => true
  | x :: xs => xs.all (fun y => y = x)

/-- The classification-guarded publish discipline shared by every
publishing handler: `if _FsCache.check_dir(topic): publish(...)` else
`if not _FsCache.check_exists(topic): raise FileNotFoundError(topic)`
else `raise NotADirectoryError(topic)`. -/
def guardedPublish (c : CacheState) (topic : MQTTPath) (pub : Pub) :
    CacheState × Except Err Pub :=
  let r1 := check_dir c topic
  if r1.1 then (r1.2, .ok pub)
  else
    let r2 := check_exists r1.2 topic
    if ¬ r2.1 then (r2.2, .error (.notFound (strOf topic)))
    else (r2.2, .error (.notADirectory (strOf topic)))

/-- `retain(client, fs, msg)`: republish the message retained under
`msg.topic + "/retained"`, guarded by classification of that topic. -/
def retain (fs : MQTTPath) (msg : Msg) (c : CacheState) :
    CacheState × Except Err Pub :=
  let topic_path := msg.topic ++ "/retained"
  let topic := fs.div topic_path
  guardedPublish c topic ⟨topic_path, msg.payload, true⟩

/-- `PowerStatusBehaviour`: per-device boolean state plus the fixed target
topic string `stat/<topic>/POWER`.  The `enum` of tracked devices is the
list `devices`; the dict `_power_state` is modelled as a function, its
`values()` in insertion order being `devices.map state`. -/
structure PowerStatus (D : Type) where
  devices : List D
  state : D → Bool
  topic : String

/-- `PowerStatusBehaviour.__init__`: every device seeded to `False`. -/
def PowerStatus.init (D : Type) (devices : List D) (topicVal : String) :
    PowerStatus D :=
  ⟨devices, fun _ => false, "stat/" ++ topicVal ++ "/POWER"⟩

/-- `PowerStatusBehaviour.handle_power`: write
`state[device] = (status == b"ON")`, then classification-guard the target
topic and publish `"ON"` iff all tracked devices are on, else `"OFF"`
(retained). -/
def handle_power [DecidableEq D] (b : PowerStatus D) (fs : MQTTPath)
    (device : D) (status : String) (c : CacheState) :
    PowerStatus D × CacheState × Except Err Pub :=
  let st' : D → Bool := fun d => if d = device then status = "ON" else b.state d
  let b' : PowerStatus D := ⟨b.devices, st', b.topic⟩
  let topic := fs.div b.topic
  let r1 := check_dir c topic
  if r1.1 then
    if b.devices.all st' then (b', r1.2, .ok ⟨b.topic, "ON", true⟩)
    else (b', r1.2, .ok ⟨b.topic, "OFF", true⟩)
  else
    let r2 := check_exists r1.2 topic
    if ¬ r2.1 then (b', r2.2, .error (.notFound (strOf topic)))
    else (b', r2.2, .error (.notADirectory (strOf topic)))

/-- `TimerStatusBehaviour`: per-device integer state plus the fixed target
topic string `stat/<topic>/TIMER<i>/unmarshalled`. -/
structure TimerStatus (D : Type) where
  devices : List D
  state : D → Int
  topic : String

/-- `TimerStatusBehaviour.__init__`: devices seeded to the pairwise
distinct values `0, 1, 2, ... (mod 24)` in enumeration order. -/
def TimerStatus.init (D : Type) [DecidableEq D] (devices : List D)
    (topicVal : String) (timerIndex : Nat) : TimerStatus D :=
  let seeded : D → Int := fun d =>
    match devices.indexOf? d with
    | some i => ((i : Int) % 24)
    | none => 0
  ⟨devices, seeded, "stat/" ++ topicVal ++ "/TIMER" ++ toString timerIndex
    ++ "/unmarshalled"⟩

/-- `TimerStatusBehaviour.handle_timer`: parse `int(status)` (a
`ValueError` propagates before any state change), write
`state[device] = hours`, then classification-guard the target topic and
publish `str(hours)` when all tracked values agree, else the sentinel
`"-"` (retained). -/
def handle_timer [DecidableEq D] (b : TimerStatus D) (fs : MQTTPath)
    (device : D) (status : String) (c : CacheState) :
    TimerStatus D × CacheState × Except Err Pub :=
  match pyInt status with
  | .error e => (b, c, .error e)
  | .ok hours =>
    let st' : D → Int := fun d => if d = device then hours else b.state d
    let b' : TimerStatus D := ⟨b.devices, st', b.topic⟩
    let topic := fs.div b.topic
    let r1 := check_dir c topic
    if r1.1 then
      if all_equal (b.devices.map st') then
        (b', r1.2, .ok ⟨b.topic, toString hours, true⟩)
      else (b', r1.2, .ok ⟨b.topic, "-", true⟩)
    else
      let r2 := check_exists r1.2 topic
      if ¬ r2.1 then (b', r2.2, .error (.notFound (strOf topic)))
      else (b', r2.2, .error (.notADirectory (strOf topic)))

/-- The `except` arms of the `time_unmarshalled` closure: `KeyError`,
`JSONDecodeError` and `ValueError` are logged and the message dropped
(`.ok none`); a success republishes; every other exception (the guarded
publish's classification errors, an `IndexError`) propagates. -/
def unmarshalArms (cst : CacheState) (r : Except Err Pub) :
    CacheState × Except Err (Option Pub) :=
  match r with
  | .ok pub => (cst, .ok (some pub))
  | .error (.keyError _) => (cst, .ok none)
  | .error (.jsonDecodeError _) => (cst, .ok none)
  | .error (.valueError _) => (cst, .ok none)
  | .error e => (cst, .error e)

/-- `time_unmarshalled(timer_index, topic)`: the closure's body.  The
composite `json.loads(msg.payload)[timer_name]["Time"]` is an external
JSON-library lookup; its outcome is abstracted as the `jsonTime` input
(`jsonDecodeError` for an undecodable payload, `keyError` for a missing
key, or the extracted time string).  The rest — the `":"` split, the two
`int(...)` parses, the rounding, the guarded publish, and the
`except KeyError / JSONDecodeError / ValueError` arms — follows the
source. -/
def time_unmarshalled_run (timerIndex : Nat) (topicVal : String)
    (fs : MQTTPath) (jsonTime : Except Err String) (c : CacheState) :
    CacheState × Except Err (Option Pub) :=
  let topic_path := "stat/" ++ topicVal ++ "/TIMER" ++ toString timerIndex
    ++ "/unmarshalled"
  let tryBlock : CacheState × Except Err Pub :=
    match jsonTime with
    | .error e => (c, .error e)
    | .ok timeStr =>
      let split_time := (chSplit ':' timeStr.toList).map (fun l => String.mk l)
      match split_time.get? 0 with
      | none => (c, .error (.indexError timeStr))
      | some h0 =>
        match pyInt h0 with
        | .error e => (c, .error e)
        | .ok hours0 =>
          match split_time.get? 1 with
          | none => (c, .error (.indexError timeStr))
          | some m0 =>
            match pyInt m0 with
            | .error e => (c, .error e)
            | .ok minutes =>
              let hours := if minutes ≥ 30 then (hours0 + 1) % 24 else hours0
              guardedPublish c (fs.div topic_path)
                ⟨topic_path, toString hours, true⟩
  unmarshalArms tryBlock.1 tryBlock.2

/-! ### Dispatcher (`__init__.py`) -/

/-- Classification errors: the three exception classes `on_message`
catches around a handler invocation. -/
def Err.isClassification : Err → Bool
  | .notFound _ => true
  | .notADirectory _ => true
  | .isADirectory _ => true
  | _ => false

/-- A handler environment: the behaviour of each handler id (the leaves'
callables) on a message, as the publishes it performs or the exception it
raises. -/
abbrev HEnv : Type := Nat → Msg → Except Err (List Pub)

/-- The body of `on_message`'s `try` block for one child:
`child.handler(client, fs, msg)` — the `.handler` property access followed
by the invocation. -/
def childRun (henv : HEnv) (msg : Msg) (child : MQTTPath) :
    Except Err (List Pub) :=
  match child.info.handler with
  | .error e => .error e
  | .ok hid => henv hid msg

/-- One iteration of `on_message`'s loop: skip non-files; invoke the
handler inside `try`, catching (and logging) exactly
`FileNotFoundError`, `NotADirectoryError` and `IsADirectoryError`; every
other exception escapes the `try`. -/
def runChild (henv : HEnv) (msg : Msg) (child : MQTTPath) :
    Except Err (List Pub) :=
  if child.is_file then
    match childRun henv msg child with
    | .ok pubs => .ok pubs
    | .error e => if e.isClassification then .ok [] else .error e
  else .ok []

/-- The `for child in ... .iterdir()` loop of `on_message`, collecting the
publishes of the successfully invoked children; an uncaught exception
aborts the loop and propagates. -/
def onMessageLoop (henv : HEnv) (msg : Msg) :
    List MQTTPath → Except Err (List Pub)
  | [] => .ok []
  | child :: rest =>
    match runChild henv msg child with
    | .error e => .error e
    | .ok pubs =>
      match onMessageLoop henv msg rest with
      | .error e => .error e
      | .ok more => .ok (pubs ++ more)

/-- `on_message(client, fs, msg)`: enumerate the children of
`fs / msg.topic` (an `iterdir` exception propagates — it is raised outside
the `try`) and run each child through the fault-isolating loop. -/
def on_message (henv : HEnv) (fs : MQTTPath) (msg : Msg) :
    Except Err (List Pub) :=
  match (fs.div msg.topic).iterdir with
  | .error e => .error e
  | .ok children => onMessageLoop henv msg children

/-! ### Helper lemmas -/

/-- The `parts` recorded by the info walk are always the full list given to
it, wherever the walk stops. -/
theorem infoWalk_parts : ∀ (l allParts : List String) (cur : TreeItem),
    (infoWalk allParts cur l).parts = allParts
  | [], _, _ => rfl
  | part :: rest, allParts, cur => by
    unfold infoWalk
    split
    · cases cur with
      | leaf _ => rfl
      | dir entries =>
        cases hd : dictGet entries part with
        | none => simp [hd]
        | some nxt => simp [hd, infoWalk_parts rest allParts nxt]
    · exact infoWalk_parts rest allParts cur

/-- A path's canonical parts are the parts of its normalized text. -/
theorem info_parts (p : MQTTPath) :
    p.info.parts = pyParts (normpath (strOf p)) :=
  infoWalk_parts _ _ _

/-- Two paths with the same tree contents and the same text resolve to the
same info record. -/
theorem info_congr (p q : MQTTPath) (ht : p.tree = q.tree)
    (hs : strOf p = strOf q) : p.info = q.info := by
  unfold MQTTPath.info
  rw [ht, hs]

/-- Formalisation of the spec's words "the longest-matching prefix's parts
(the partially walked path)": the parts the `MQTTPath.info` walk consumes
before it stops at the first missing name (separator markers included). -/
def walkedSegs (cur : TreeItem) : List String → List String
  | [] => []
  | part :: rest =>
    if part ≠ "." ∧ part ≠ "/" then
      match cur with
      | .leaf _ => []
      | .dir entries =>
        match dictGet entries part with
        | none => []
        | some nxt => part :: walkedSegs nxt rest
    else part :: walkedSegs cur rest

/-- The walked segments form an initial segment of the parts list. -/
theorem walkedSegs_initial : ∀ (l : List String) (cur : TreeItem),
    ∃ rest, walkedSegs cur l ++ rest = l
  | [], _ => ⟨[], rfl⟩
  | part :: rest, cur => by
    unfold walkedSegs
    split
    · cases cur with
      | leaf _ => exact ⟨part :: rest, rfl⟩
      | dir entries =>
        cases hd : dictGet entries part with
        | none => exact ⟨part :: rest, by simp [hd]⟩
        | some nxt =>
          obtain ⟨r, hr⟩ := walkedSegs_initial rest nxt
          exact ⟨r, by simp [hd, hr]⟩
    · obtain ⟨r, hr⟩ := walkedSegs_initial rest cur
      exact ⟨r, by simp [hr]⟩

/-- An info record classifies as a file exactly when the walk reached a
handler leaf. -/
theorem is_file_item (i : PInfo) :
    i.is_file = true ↔ ∃ h, i.item = some (.leaf h) := by
  unfold PInfo.is_file
  cases hi : i.item with
  | none => simp
  | some it => cases it <;> simp

/-- An info record classifies as a directory exactly when the walk reached
a directory node. -/
theorem is_dir_item (i : PInfo) :
    i.is_dir = true ↔ ∃ es, i.item = some (.dir es) := by
  unfold PInfo.is_dir
  cases hi : i.item with
  | none => simp
  | some it => cases it <;> simp

/-- An info record reports a missing path exactly when the walk reached no
node. -/
theorem exists_item (i : PInfo) :
    i.exists_ = false ↔ i.item = none := by
  unfold PInfo.exists_
  cases hi : i.item <;> simp

/-! ### Concrete trees and paths used by the claims -/

/-- A two-level tree: `{"a": {"b": leaf}}`. -/
def T2 : TreeItem := .dir [("a", .dir [("b", .leaf 0)])]

/-- A path over `T2` whose walk fails at its second part. -/
def p2 : MQTTPath := ⟨0, T2, ["a", "x", "y"]⟩

/-- A one-level tree: `{"t": leaf}`. -/
def T3 : TreeItem := .dir [("t", .leaf 0)]

/-- A path over `T3` classifying as a leaf. -/
def p3 : MQTTPath := ⟨0, T3, ["t"]⟩

/-- A path over `T3` classifying as missing. -/
def pz : MQTTPath := ⟨0, T3, ["zz"]⟩

/-! ### C2 -/

/-- C2 (corrected): when a path classifies as Missing, `_MQTTPathInfo`
receives the FULL normalized parts list — `canonical_segments` is not cut
at the walked prefix; the walked prefix is merely an initial segment of
it. -/
theorem missing_canonical_segments (p : MQTTPath)
    (_hmiss : p.info.exists_ = false) :
    p.info.parts = pyParts (normpath (strOf p)) ∧
    ∃ rest, walkedSegs p.tree (pyParts (normpath (strOf p))) ++ rest =
      p.info.parts := by
  refine ⟨info_parts p, ?_⟩
  rw [info_parts p]
  exact walkedSegs_initial _ _

/-- Witness for C2's theorem at the concrete missing path `p2`. -/
theorem missing_canonical_segments_wit :
    p2.info.parts = pyParts (normpath (strOf p2)) ∧
    ∃ rest, walkedSegs p2.tree (pyParts (normpath (strOf p2))) ++ rest =
      p2.info.parts :=
  missing_canonical_segments p2 (by decide)

/-- C2 counterexample: `p2 = a/x/y` over `{"a": {"b": leaf}}` goes missing
at depth 1 (only `a` is walked), yet `canonical_segments` has length 3. -/
theorem missing_canonical_segments_cex :
    p2.info.exists_ = false ∧
    walkedSegs T2 (pyParts (normpath (strOf p2))) = ["a"] ∧
    p2.info.parts = ["a", "x", "y"] ∧ p2.info.parts.length = 3 := by
  refine ⟨by decide, by decide, by decide, by decide⟩

/-! ### C3 -/

/-- C3 (corrected): `iterdir` evaluates `self.info.children` eagerly when
the root tree reference is a mapping, so a Leaf-classified path raises
`NotADirectoryError` (not the empty sequence) and a Missing path raises
`FileNotFoundError`; the empty sequence is produced only when the root
tree reference is itself a handler. -/
theorem iterdir_outcomes (p : MQTTPath) :
    (p.tree.isCallable = false →
      (p.is_file = true →
        p.iterdir = .error (.notADirectory (pyJoin p.info.parts))) ∧
      (p.exists_ = false →
        p.iterdir = .error (.notFound (pyJoin p.info.parts)))) ∧
    (p.tree.isCallable = true → p.iterdir = .ok []) := by
  unfold MQTTPath.iterdir
  constructor
  · intro hnc
    rw [hnc]
    constructor
    · intro hfile
      obtain ⟨h, hit⟩ := (is_file_item p.info).mp hfile
      simp [PInfo.children, hit, Except.map]
    · intro hmiss
      have hit := (exists_item p.info).mp hmiss
      simp [PInfo.children, hit, Except.map]
  · intro hc
    rw [hc]
    simp

/-- Witness for C3's theorem: leaf path `p3`, missing path `pz`, and a
path built over a bare handler. -/
theorem iterdir_outcomes_wit :
    p3.iterdir = .error (.notADirectory (pyJoin p3.info.parts)) ∧
    pz.iterdir = .error (.notFound (pyJoin pz.info.parts)) ∧
    (MQTTPath.mk 1 (.leaf 7) ["x"]).iterdir = .ok [] :=
  ⟨((iterdir_outcomes p3).1 rfl).1 rfl,
   ((iterdir_outcomes pz).1 rfl).2 rfl,
   (iterdir_outcomes (MQTTPath.mk 1 (.leaf 7) ["x"])).2 rfl⟩

/-- C3 counterexample: `p3 = t` over `{"t": leaf}` classifies as a Leaf,
and `iterdir` raises `NotADirectoryError` instead of yielding an empty
sequence. -/
theorem iterdir_leaf_cex :
    p3.is_file = true ∧ p3.iterdir = .error (.notADirectory "t") :=
  ⟨rfl, rfl⟩

/-! ### C5 -/

/-- C5 (corrected): `MQTTPath.__eq__` compares the same tree instance and
the RAW joined text, not the normalized form; empty segments vanish in
`posixpath.join`, but a `"."` segment survives, so two paths over the same
tree whose normalized forms agree can still be unequal. -/
theorem path_eq_raw_text :
    (∀ p q : MQTTPath,
      pyEq p q = true ↔ p.treeId = q.treeId ∧ strOf p = strOf q) ∧
    (∀ (tid : Nat) (t : TreeItem),
      pyEq ⟨tid, t, ["a", "", "b"]⟩ ⟨tid, t, ["a", "b"]⟩ = true) ∧
    (∀ (tid : Nat) (t : TreeItem),
      pyEq ⟨tid, t, ["a", ".", "b"]⟩ ⟨tid, t, ["a", "b"]⟩ = false) := by
  refine ⟨fun p q => ?_, fun tid t => ?_, fun tid t => ?_⟩
  · unfold pyEq
    exact decide_eq_true_iff
  · exact decide_eq_true ⟨rfl, rfl⟩
  · refine decide_eq_false ?_
    rintro ⟨-, h⟩
    have hne : ("a/./b" : String) ≠ "a/b" := by decide
    exact hne h

/-- Witness for C5's theorem at two concrete paths. -/
theorem path_eq_raw_text_wit :
    pyEq p2 p2 = true ↔ p2.treeId = p2.treeId ∧ strOf p2 = strOf p2 :=
  path_eq_raw_text.1 p2 p2

/-- C5 counterexample: over one and the same tree `T2`, the raw texts
`a/./b` and `a/b` normalize identically, yet the paths are unequal. -/
theorem path_eq_cex :
    (MQTTPath.mk 0 T2 ["a", ".", "b"]).treeId =
      (MQTTPath.mk 0 T2 ["a", "b"]).treeId ∧
    normpath (strOf (MQTTPath.mk 0 T2 ["a", ".", "b"])) =
      normpath (strOf (MQTTPath.mk 0 T2 ["a", "b"])) ∧
    pyEq (MQTTPath.mk 0 T2 ["a", ".", "b"]) (MQTTPath.mk 0 T2 ["a", "b"]) =
      false := by
  refine ⟨rfl, by decide, by decide⟩

/-! ### Cache lemmas -/

/-- A single-segment path's text is that segment. -/
theorem strOf_single (tid : Nat) (t : TreeItem) (s : String) :
    strOf ⟨tid, t, [s]⟩ = s := rfl

/-- Classification depends only on the tree contents and the text. -/
theorem classifyKind_congr (p q : MQTTPath) (ht : p.tree = q.tree)
    (hs : strOf p = strOf q) : classifyKind p = classifyKind q := by
  unfold classifyKind MQTTPath.exists_ MQTTPath.is_dir
  rw [info_congr p q ht hs]

/-- A cache hit comes from a stored entry. -/
theorem cacheLookup_mem (c : CacheState) (p : MQTTPath) (k : Kind)
    (h : cacheLookup c p = some k) : ((p.treeId, strOf p), k) ∈ c := by
  induction c with
  | nil => exact absurd h (by simp [cacheLookup])
  | cons e rest ih =>
    unfold cacheLookup at h
    by_cases he : e.1 = (p.treeId, strOf p)
    · rw [if_pos he] at h
      simp only [Option.some.injEq] at h
      exact List.mem_cons.mpr (Or.inl (by obtain ⟨a, b⟩ := e; simp_all))
    · rw [if_neg he] at h
      exact List.mem_cons_of_mem _ (ih h)

/-- One `_FsCache._cache` query keeps the cache consistent. -/
theorem consistent_step (trees : Nat → TreeItem) (c : CacheState)
    (p : MQTTPath) (hc : CacheConsistent trees c)
    (hp : p.tree = trees p.treeId) :
    CacheConsistent trees (fsCache c p).2 := by
  unfold fsCache
  cases hl : cacheLookup c p with
  | some k => exact hc
  | none =>
    intro tid s k hmem
    rcases List.mem_cons.mp hmem with heq | hmem'
    · simp only [Prod.mk.injEq] at heq
      obtain ⟨⟨h1, h2⟩, h3⟩ := heq
      subst h1 h2 h3
      exact (classifyKind_congr _ _ (by rw [hp]) (strOf_single ..)).symm
    · exact hc _ _ _ hmem'

/-- Every reachable cache state is consistent. -/
theorem reachable_consistent (trees : Nat → TreeItem) (c : CacheState)
    (hr : Reachable trees c) : CacheConsistent trees c := by
  induction hr with
  | init => intro tid s k hmem; exact absurd hmem (List.not_mem_nil _)
  | step c p _hr hp ih => exact consistent_step trees c p ih hp

/-- Over a consistent cache, `_FsCache._cache` answers exactly the direct
classification, hit or miss. -/
theorem fsCache_kind (trees : Nat → TreeItem) (c : CacheState)
    (p : MQTTPath) (hc : CacheConsistent trees c)
    (hp : p.tree = trees p.treeId) : (fsCache c p).1 = classifyKind p := by
  unfold fsCache
  cases hl : cacheLookup c p with
  | some k =>
    simp only
    have hk := hc _ _ _ (cacheLookup_mem c p k hl)
    rw [hk]
    exact classifyKind_congr _ _ (by rw [hp]) (strOf_single ..)
  | none => simp only

/-- The three classification outcomes, stated against the three direct
query methods. -/
theorem classify_spec (p : MQTTPath) :
    (classifyKind p = .MISSING ↔ p.exists_ = false) ∧
    (classifyKind p = .DIR ↔ p.is_dir = true) ∧
    (classifyKind p = .FILE ↔ p.is_file = true) := by
  unfold classifyKind MQTTPath.exists_ MQTTPath.is_dir MQTTPath.is_file
  rcases hi : p.info.item with _ | it
  · simp [PInfo.exists_, PInfo.is_dir, PInfo.is_file, hi]
  · cases it <;> simp [PInfo.exists_, PInfo.is_dir, PInfo.is_file, hi]

/-- Deciding `DIR` against the classification is the direct `is_dir`. -/
theorem decide_kind_dir (p : MQTTPath) :
    decide (classifyKind p = Kind.DIR) = p.is_dir := by
  cases hb : p.is_dir with
  | true => simp [(classify_spec p).2.1.mpr hb]
  | false =>
    apply decide_eq_false
    intro hk
    exact absurd ((classify_spec p).2.1.mp hk) (by simp [hb])

/-- Deciding `FILE` against the classification is the direct `is_file`. -/
theorem decide_kind_file (p : MQTTPath) :
    decide (classifyKind p = Kind.FILE) = p.is_file := by
  cases hb : p.is_file with
  | true => simp [(classify_spec p).2.2.mpr hb]
  | false =>
    apply decide_eq_false
    intro hk
    exact absurd ((classify_spec p).2.2.mp hk) (by simp [hb])

/-- Deciding non-`MISSING` against the classification is the direct
`exists`. -/
theorem decide_kind_exists (p : MQTTPath) :
    decide (¬ classifyKind p = Kind.MISSING) = p.exists_ := by
  cases hb : p.exists_ with
  | true =>
    apply decide_eq_true
    intro hk
    exact absurd ((classify_spec p).1.mp hk) (by simp [hb])
  | false => simp [(classify_spec p).1.mpr hb]

/-! ### C4 -/

/-- C4 (confirmed): over every cache state reachable by earlier queries,
the cached classification queries agree with direct classification
(`check_dir` with `is_dir`, `check_file` with `is_file`, `check_exists`
with `exists`), and each query leaves the cache reachable — the cache
layer is observationally equivalent to classification with the cache
disabled. -/
theorem cache_observational_equiv (trees : Nat → TreeItem) (c : CacheState)
    (p : MQTTPath) (hr : Reachable trees c) (hp : p.tree = trees p.treeId) :
    (check_dir c p).1 = p.is_dir ∧
    (check_file c p).1 = p.is_file ∧
    (check_exists c p).1 = p.exists_ ∧
    Reachable trees (check_dir c p).2 ∧
    Reachable trees (check_file c p).2 ∧
    Reachable trees (check_exists c p).2 := by
  have hc := reachable_consistent trees c hr
  have hk := fsCache_kind trees c p hc hp
  have hstep : Reachable trees (fsCache c p).2 := Reachable.step c p hr hp
  refine ⟨?_, ?_, ?_, hstep, hstep, hstep⟩
  · show decide ((fsCache c p).1 = Kind.DIR) = p.is_dir
    rw [hk]
    exact decide_kind_dir p
  · show decide ((fsCache c p).1 = Kind.FILE) = p.is_file
    rw [hk]
    exact decide_kind_file p
  · show decide (¬ (fsCache c p).1 = Kind.MISSING) = p.exists_
    rw [hk]
    exact decide_kind_exists p

/-! ### Concrete scenario wiring -/

/-- Two tracked devices, standing for the members of a device enum. -/
inductive Dev2 where
  | X
  | Y
  deriving DecidableEq, Repr

/-- A routing tree whose only content is the directory target
`stat/T/POWER`. -/
def T7 : TreeItem :=
  .dir [("stat", .dir [("T", .dir [("POWER", .dir [])])])]

/-- The root path over `T7` (the process-wide `fs`). -/
def fs7 : MQTTPath := ⟨0, T7, []⟩

/-- The constant tree map for `T7`-rooted reachability. -/
def trees7 : Nat → TreeItem := fun _ => T7

/-- The `stat/T/POWER` target path over `T7`. -/
def p7 : MQTTPath := fs7.div ("stat/T/POWER")

/-- The cache after one query on `p7`. -/
def c7one : CacheState := (fsCache [] p7).2

/-- Witness for C4's theorem: the concrete path `p7` over the one-entry
cache produced by a first query on it. -/
theorem cache_observational_equiv_wit :
    (check_dir c7one p7).1 = p7.is_dir ∧
    (check_file c7one p7).1 = p7.is_file ∧
    (check_exists c7one p7).1 = p7.exists_ ∧
    Reachable trees7 (check_dir c7one p7).2 ∧
    Reachable trees7 (check_file c7one p7).2 ∧
    Reachable trees7 (check_exists c7one p7).2 :=
  cache_observational_equiv trees7 c7one p7
    (Reachable.step [] p7 Reachable.init rfl) rfl

/-! ### C6 -/

/-- The classify-before-publish discipline, by target kind: Directory
publishes, Leaf raises `NotADirectoryError`, Missing raises
`FileNotFoundError`. -/
theorem guardedPublish_cases (trees : Nat → TreeItem) (c : CacheState)
    (topic : MQTTPath) (pub : Pub) (hc : CacheConsistent trees c)
    (hp : topic.tree = trees topic.treeId) :
    (topic.is_dir = true → (guardedPublish c topic pub).2 = .ok pub) ∧
    (topic.is_file = true →
      (guardedPublish c topic pub).2 = .error (.notADirectory (strOf topic))) ∧
    (topic.exists_ = false →
      (guardedPublish c topic pub).2 = .error (.notFound (strOf topic))) := by
  have hc1 : CacheConsistent trees (fsCache c topic).2 :=
    consistent_step trees c topic hc hp
  have hk : (fsCache c topic).1 = classifyKind topic :=
    fsCache_kind trees c topic hc hp
  have hk2 : (fsCache (fsCache c topic).2 topic).1 = classifyKind topic :=
    fsCache_kind trees _ topic hc1 hp
  have e1 : (check_dir c topic).1 = decide (classifyKind topic = Kind.DIR) := by
    show decide ((fsCache c topic).1 = Kind.DIR) = _
    rw [hk]
  have e3 : (check_exists (check_dir c topic).2 topic).1 =
      decide (¬ classifyKind topic = Kind.MISSING) := by
    show decide (¬ (fsCache (fsCache c topic).2 topic).1 = Kind.MISSING) = _
    rw [hk2]
  have hgp : (guardedPublish c topic pub).2 =
      (if (check_dir c topic).1 then Except.ok pub
       else if ¬ (check_exists (check_dir c topic).2 topic).1 then
         Except.error (Err.notFound (strOf topic))
       else Except.error (Err.notADirectory (strOf topic))) := by
    show (if (check_dir c topic).1 then ((check_dir c topic).2, Except.ok pub)
        else if ¬ (check_exists (check_dir c topic).2 topic).1 then
          ((check_exists (check_dir c topic).2 topic).2,
            Except.error (Err.notFound (strOf topic)))
        else ((check_exists (check_dir c topic).2 topic).2,
          Except.error (Err.notADirectory (strOf topic)))).2 = _
    by_cases h1 : (check_dir c topic).1 <;>
      by_cases h2 : (check_exists (check_dir c topic).2 topic).1 <;>
      simp [h1, h2]
  rw [hgp, e1, e3]
  refine ⟨fun hdir => ?_, fun hfile => ?_, fun hmiss => ?_⟩
  · rw [(classify_spec topic).2.1.mpr hdir]
    simp
  · rw [(classify_spec topic).2.2.mpr hfile]
    simp
  · rw [(classify_spec topic).1.mpr hmiss]
    simp

/-- C6 (confirmed): accessing the handler of a Directory raises
`IsADirectoryError` and of a Missing path `FileNotFoundError` (a Leaf
yields the handler); publishing into a Leaf raises `NotADirectoryError`,
into a Missing path `FileNotFoundError` (a Directory publishes) — the
exhaustive classification outcomes of the wrong-kind operations. -/
theorem wrong_kind_errors :
    (∀ i : PInfo,
      (i.is_dir = true →
        i.handler = .error (.isADirectory (pyJoin i.parts))) ∧
      (i.exists_ = false →
        i.handler = .error (.notFound (pyJoin i.parts))) ∧
      (i.is_file = true → ∃ h, i.handler = .ok h)) ∧
    (∀ (trees : Nat → TreeItem) (c : CacheState) (fs : MQTTPath) (msg : Msg),
      CacheConsistent trees c → fs.tree = trees fs.treeId →
      (((fs.div (msg.topic ++ "/retained")).is_dir = true →
        (retain fs msg c).2 =
          .ok ⟨msg.topic ++ "/retained", msg.payload, true⟩) ∧
       ((fs.div (msg.topic ++ "/retained")).is_file = true →
        (retain fs msg c).2 =
          .error (.notADirectory (strOf (fs.div (msg.topic ++ "/retained"))))) ∧
       ((fs.div (msg.topic ++ "/retained")).exists_ = false →
        (retain fs msg c).2 =
          .error (.notFound (strOf (fs.div (msg.topic ++ "/retained"))))))) := by
  constructor
  · intro i
    refine ⟨fun hdir => ?_, fun hmiss => ?_, fun hfile => ?_⟩
    · obtain ⟨es, hi⟩ := (is_dir_item i).mp hdir
      unfold PInfo.handler
      rw [hi]
    · have hi := (exists_item i).mp hmiss
      unfold PInfo.handler
      rw [hi]
    · obtain ⟨h, hi⟩ := (is_file_item i).mp hfile
      refine ⟨h, ?_⟩
      unfold PInfo.handler
      rw [hi]
  · intro trees c fs msg hc hp
    exact
      ⟨(guardedPublish_cases trees c (fs.div (msg.topic ++ "/retained"))
          ⟨msg.topic ++ "/retained", msg.payload, true⟩ hc hp).1,
       (guardedPublish_cases trees c (fs.div (msg.topic ++ "/retained"))
          ⟨msg.topic ++ "/retained", msg.payload, true⟩ hc hp).2.1,
       (guardedPublish_cases trees c (fs.div (msg.topic ++ "/retained"))
          ⟨msg.topic ++ "/retained", msg.payload, true⟩ hc hp).2.2⟩

/-- A tree with a Leaf at `m/retained`. -/
def T6a : TreeItem := .dir [("m", .dir [("retained", .leaf 3)])]

/-- A tree with a Directory at `m/retained`. -/
def T6b : TreeItem := .dir [("m", .dir [("retained", .dir [])])]

/-- Witness for C6's theorem at concrete info records and concrete retain
targets of each kind. -/
theorem wrong_kind_errors_wit :
    ((PInfo.mk ["d"] (some (.dir []))).handler =
      .error (.isADirectory (pyJoin ["d"])) ∧
     (PInfo.mk ["m"] none).handler = .error (.notFound (pyJoin ["m"])) ∧
     (∃ h, (PInfo.mk ["t"] (some (.leaf 5))).handler = .ok h)) ∧
    ((retain ⟨0, T6b, []⟩ ⟨"m", "pl"⟩ []).2 =
      .ok ⟨"m/retained", "pl", true⟩ ∧
     (retain ⟨1, T6a, []⟩ ⟨"m", "pl"⟩ []).2 =
      .error (.notADirectory
        (strOf ((MQTTPath.mk 1 T6a []).div ("m" ++ "/retained")))) ∧
     (retain ⟨2, T6a, []⟩ ⟨"zz", "pl"⟩ []).2 =
      .error (.notFound
        (strOf ((MQTTPath.mk 2 T6a []).div ("zz" ++ "/retained"))))) := by
  constructor
  · exact ⟨(wrong_kind_errors.1 _).1 rfl, (wrong_kind_errors.1 _).2.1 rfl,
      (wrong_kind_errors.1 _).2.2 rfl⟩
  · refine ⟨?_, ?_, ?_⟩
    · exact ((wrong_kind_errors.2 (fun _ => T6b) [] ⟨0, T6b, []⟩ ⟨"m", "pl"⟩
        (by intro tid s k hmem; exact absurd hmem (List.not_mem_nil _))
        rfl)).1 (by decide)
    · exact ((wrong_kind_errors.2 (fun _ => T6a) [] ⟨1, T6a, []⟩ ⟨"m", "pl"⟩
        (by intro tid s k hmem; exact absurd hmem (List.not_mem_nil _))
        rfl)).2.1 (by decide)
    · exact ((wrong_kind_errors.2 (fun _ => T6a) [] ⟨2, T6a, []⟩ ⟨"zz", "pl"⟩
        (by intro tid s k hmem; exact absurd hmem (List.not_mem_nil _))
        rfl)).2.2 (by decide)

/-! ### C7 -/

/-- The initial power behaviour over the two scenario devices, target
`stat/T/POWER`. -/
def pw0 : PowerStatus Dev2 := PowerStatus.init Dev2 [Dev2.X, Dev2.Y] "T"

/-- Scenario step 1: device X reports ON. -/
def pwStep1 := handle_power pw0 fs7 Dev2.X "ON" []

/-- Scenario step 2: device Y reports ON. -/
def pwStep2 := handle_power pwStep1.1 fs7 Dev2.Y "ON" pwStep1.2.1

/-- Scenario step 3: device Y reports OFF. -/
def pwStep3 := handle_power pwStep2.1 fs7 Dev2.Y "OFF" pwStep2.2.1

/-- C7 (confirmed): `handle_power` first writes the invoking device's
state from the payload, then — when the target topic classifies as a
Directory — publishes retained `"ON"` exactly when every tracked device is
on, else `"OFF"`; in the concrete two-device scenario the successive
publishes are `OFF`, `ON`, `OFF`. -/
theorem power_aggregator :
    (∀ (D : Type) [DecidableEq D] (trees : Nat → TreeItem) (c : CacheState)
       (b : PowerStatus D) (fs : MQTTPath) (device : D) (status : String),
      CacheConsistent trees c → fs.tree = trees fs.treeId →
      (fs.div b.topic).is_dir = true →
      (handle_power b fs device status c).1.state device
          = decide (status = "ON") ∧
      (handle_power b fs device status c).2.2 =
        .ok ⟨b.topic,
          if b.devices.all (handle_power b fs device status c).1.state
          then "ON" else "OFF", true⟩) ∧
    pwStep1.2.2 = .ok ⟨"stat/T/POWER", "OFF", true⟩ ∧
    pwStep2.2.2 = .ok ⟨"stat/T/POWER", "ON", true⟩ ∧
    pwStep3.2.2 = .ok ⟨"stat/T/POWER", "OFF", true⟩ := by
  refine ⟨?_, rfl, rfl, rfl⟩
  intro D instD trees c b fs device status hc hp hdir
  have hk : (fsCache c (fs.div b.topic)).1 = classifyKind (fs.div b.topic) :=
    fsCache_kind trees c _ hc hp
  have e1 : (check_dir c (fs.div b.topic)).1 = true := by
    show decide ((fsCache c (fs.div b.topic)).1 = Kind.DIR) = true
    rw [hk, (classify_spec _).2.1.mpr hdir]
    decide
  unfold handle_power
  dsimp only
  rw [e1]
  by_cases hall :
      b.devices.all
        (fun d => if d = device then decide (status = "ON") else b.state d) <;>
    simp [hall]

/-- Witness for C7's general part at the concrete first scenario step. -/
theorem power_aggregator_wit :
    pwStep1.1.state Dev2.X = decide (("ON" : String) = "ON") ∧
    pwStep1.2.2 =
      .ok ⟨pw0.topic,
        if pw0.devices.all pwStep1.1.state then "ON" else "OFF", true⟩ :=
  power_aggregator.1 Dev2 trees7 [] pw0 fs7 Dev2.X "ON"
    (fun _ _ _ hmem => absurd hmem (List.not_mem_nil _)) rfl (by decide)

/-! ### C8 -/

/-- All elements of a `groupby`-single-group list are equal. -/
theorem all_equal_forall (l : List Int) (h : all_equal l = true) :
    ∀ x ∈ l, ∀ y ∈ l, x = y := by
  cases l with
  | nil => intro x hx; exact absurd hx (List.not_mem_nil _)
  | cons a as =>
    intro x hx y hy
    unfold all_equal at h
    have ha : ∀ z ∈ as, z = a := by
      intro z hz
      have hz2 := List.all_eq_true.mp h z hz
      simpa using hz2
    have hxa : x = a := by
      rcases List.mem_cons.mp hx with rfl | hx'
      · rfl
      · exact ha x hx'
    have hya : y = a := by
      rcases List.mem_cons.mp hy with rfl | hy'
      · rfl
      · exact ha y hy'
    rw [hxa, hya]

/-- A routing tree whose only content is the directory target
`stat/T/TIMER1/unmarshalled`. -/
def T8 : TreeItem :=
  .dir [("stat", .dir [("T", .dir [("TIMER1", .dir
    [("unmarshalled", .dir [])])])])]

/-- The root path over `T8`. -/
def fs8 : MQTTPath := ⟨0, T8, []⟩

/-- The constant tree map for `T8`-rooted consistency. -/
def trees8 : Nat → TreeItem := fun _ => T8

/-- The initial timer behaviour over the two scenario devices (seeded to
the distinct values 0 and 1), target `stat/T/TIMER1/unmarshalled`. -/
def tm0 : TimerStatus Dev2 := TimerStatus.init Dev2 [Dev2.X, Dev2.Y] "T" 1

/-- Scenario step 1: device X reports 5. -/
def tmStep1 := handle_timer tm0 fs8 Dev2.X "5" []

/-- Scenario step 2: device Y reports 5. -/
def tmStep2 := handle_timer tmStep1.1 fs8 Dev2.Y "5" tmStep1.2.1

/-- Scenario step 3: device Y reports 6. -/
def tmStep3 := handle_timer tmStep2.1 fs8 Dev2.Y "6" tmStep2.2.1

/-- C8 (confirmed): `handle_timer` parses an integer from the payload,
stores it for the invoking device, then — when the target topic classifies
as a Directory — publishes the just-stored value retained when all
tracked values agree (that value then being the shared one) and the
sentinel `"-"` otherwise; in the concrete two-device scenario the second
feed publishes `5` and the third publishes `"-"`. -/
theorem value_agreement_aggregator :
    (∀ (D : Type) [DecidableEq D] (trees : Nat → TreeItem) (c : CacheState)
       (b : TimerStatus D) (fs : MQTTPath) (device : D) (status : String)
       (hours : Int),
      CacheConsistent trees c → fs.tree = trees fs.treeId →
      pyInt status = .ok hours →
      (fs.div b.topic).is_dir = true →
      (handle_timer b fs device status c).1.state device = hours ∧
      (handle_timer b fs device status c).2.2 =
        .ok ⟨b.topic,
          if all_equal
              (b.devices.map (handle_timer b fs device status c).1.state)
          then toString hours else "-", true⟩ ∧
      (device ∈ b.devices →
        all_equal
          (b.devices.map (handle_timer b fs device status c).1.state) =
            true →
        ∀ d ∈ b.devices,
          (handle_timer b fs device status c).1.state d = hours)) ∧
    tmStep1.2.2 = .ok ⟨"stat/T/TIMER1/unmarshalled", "-", true⟩ ∧
    tmStep2.2.2 = .ok ⟨"stat/T/TIMER1/unmarshalled", "5", true⟩ ∧
    tmStep3.2.2 = .ok ⟨"stat/T/TIMER1/unmarshalled", "-", true⟩ := by
  refine ⟨?_, rfl, rfl, rfl⟩
  intro D instD trees c b fs device status hours hc hp hpi hdir
  have hk : (fsCache c (fs.div b.topic)).1 = classifyKind (fs.div b.topic) :=
    fsCache_kind trees c _ hc hp
  have e1 : (check_dir c (fs.div b.topic)).1 = true := by
    show decide ((fsCache c (fs.div b.topic)).1 = Kind.DIR) = true
    rw [hk, (classify_spec _).2.1.mpr hdir]
    decide
  unfold handle_timer
  rw [hpi]
  dsimp only
  rw [e1]
  by_cases hae : all_equal
      (b.devices.map fun d => if d = device then hours else b.state d) = true
  · simp only [if_pos hae]
    refine ⟨by simp, by simp [hae], ?_⟩
    intro hmem _hall d hd
    have h1 := all_equal_forall _ hae _
      (List.mem_map_of_mem _ hd) _ (List.mem_map_of_mem _ hmem)
    simpa using h1
  · simp only [if_neg hae]
    refine ⟨by simp, by simp [hae], ?_⟩
    intro _hmem hall d hd
    exact absurd hall hae

/-- Witness for C8's general part at the concrete first scenario step. -/
theorem value_agreement_aggregator_wit :
    tmStep1.1.state Dev2.X = 5 ∧
    tmStep1.2.2 =
      .ok ⟨tm0.topic,
        if all_equal (tm0.devices.map tmStep1.1.state)
        then toString (5 : Int) else "-", true⟩ ∧
    (Dev2.X ∈ tm0.devices →
      all_equal (tm0.devices.map tmStep1.1.state) = true →
      ∀ d ∈ tm0.devices, tmStep1.1.state d = 5) :=
  value_agreement_aggregator.1 Dev2 trees8 [] tm0 fs8 Dev2.X "5" 5
    (fun _ _ _ hmem => absurd hmem (List.not_mem_nil _)) rfl rfl (by decide)

/-! ### C9 -/

/-- C9 (confirmed): for a well-formed time payload `H:M` for its timer
index, the unmarshalling handler publishes the rounded hour retained —
`H` when `M < 30` and `(H+1) mod 24` when `M ≥ 30` — to the derived
topic; in particular `7:35` publishes `8` and `23:45` publishes `0`. -/
theorem time_unmarshal_rounding :
    (∀ (timerIndex : Nat) (topicVal : String) (trees : Nat → TreeItem)
       (fs : MQTTPath) (c : CacheState) (ts hs ms : String) (H M : Nat),
      CacheConsistent trees c → fs.tree = trees fs.treeId →
      (chSplit ':' ts.toList).map (fun l => String.mk l) = [hs, ms] →
      pyInt hs = .ok (H : Int) → pyInt ms = .ok (M : Int) →
      H ≤ 23 → M ≤ 59 →
      (fs.div ("stat/" ++ topicVal ++ "/TIMER" ++ toString timerIndex
        ++ "/unmarshalled")).is_dir = true →
      (time_unmarshalled_run timerIndex topicVal fs (.ok ts) c).2 =
        .ok (some ⟨"stat/" ++ topicVal ++ "/TIMER" ++ toString timerIndex
            ++ "/unmarshalled",
          toString (if (M : Int) ≥ 30 then ((H : Int) + 1) % 24
            else (H : Int)), true⟩)) ∧
    (time_unmarshalled_run 1 "T" fs8 (.ok "7:35") []).2 =
      .ok (some ⟨"stat/T/TIMER1/unmarshalled", "8", true⟩) ∧
    (time_unmarshalled_run 1 "T" fs8 (.ok "23:45") []).2 =
      .ok (some ⟨"stat/T/TIMER1/unmarshalled", "0", true⟩) := by
  refine ⟨?_, rfl, rfl⟩
  intro timerIndex topicVal trees fs c ts hs ms H M hc hp hsplit hpi1 hpi2
    _hH _hM hdir
  unfold time_unmarshalled_run
  dsimp only
  rw [hsplit]
  dsimp only [List.get?]
  rw [hpi1]
  dsimp only
  rw [hpi2]
  dsimp only
  rw [(guardedPublish_cases trees c
    (fs.div ("stat/" ++ topicVal ++ "/TIMER" ++ toString timerIndex
      ++ "/unmarshalled"))
    ⟨"stat/" ++ topicVal ++ "/TIMER" ++ toString timerIndex
      ++ "/unmarshalled",
     toString (if (M : Int) ≥ 30 then ((H : Int) + 1) % 24 else (H : Int)),
     true⟩ hc hp).1 hdir]
  rfl

/-- Witness for C9's general part at the concrete payload time `7:35`. -/
theorem time_unmarshal_rounding_wit :
    (time_unmarshalled_run 1 "T" fs8 (.ok "7:35") []).2 =
      .ok (some ⟨"stat/T/TIMER1/unmarshalled",
        toString (if ((35 : Nat) : Int) ≥ 30 then (((7 : Nat) : Int) + 1) % 24
          else ((7 : Nat) : Int)), true⟩) :=
  time_unmarshal_rounding.1 1 "T" trees8 fs8 [] "7:35" "7" "35" 7 35
    (fun _ _ _ hmem => absurd hmem (List.not_mem_nil _)) rfl (by decide)
    rfl rfl (by decide) (by decide) (by decide)

/-! ### C10 -/

/-- C10 (confirmed): in both aggregation behaviours the state-table write
precedes the target-topic classification, so an invocation that ends in a
classification error still returns the state table with the newly written
value for the invoking device — the operation is not atomic on
classification error. -/
theorem state_write_survives_error :
    (∀ (D : Type) [DecidableEq D] (b : PowerStatus D) (fs : MQTTPath)
       (device : D) (status : String) (c : CacheState) (e : Err),
      (handle_power b fs device status c).2.2 = .error e →
      (handle_power b fs device status c).1.state device =
        decide (status = "ON")) ∧
    (∀ (D : Type) [DecidableEq D] (b : TimerStatus D) (fs : MQTTPath)
       (device : D) (status : String) (c : CacheState) (e : Err)
       (hours : Int),
      pyInt status = .ok hours →
      (handle_timer b fs device status c).2.2 = .error e →
      (handle_timer b fs device status c).1.state device = hours) := by
  constructor
  · intro D instD b fs device status c e herr
    unfold handle_power at herr ⊢
    dsimp only at herr ⊢
    by_cases hcd : (check_dir c (fs.div b.topic)).1 = true
    · exfalso
      rw [if_pos hcd] at herr
      by_cases hall : b.devices.all
          (fun d => if d = device then decide (status = "ON")
            else b.state d) = true
      · rw [if_pos hall] at herr
        exact absurd herr (by simp)
      · rw [if_neg hall] at herr
        exact absurd herr (by simp)
    · rw [if_neg hcd]
      by_cases hex : ¬ (check_exists (check_dir c (fs.div b.topic)).2
          (fs.div b.topic)).1 = true
      · rw [if_pos hex]
        simp
      · rw [if_neg hex]
        simp
  · intro D instD b fs device status c e hours hpi herr
    unfold handle_timer at herr ⊢
    rw [hpi] at herr ⊢
    dsimp only at herr ⊢
    by_cases hcd : (check_dir c (fs.div b.topic)).1 = true
    · exfalso
      rw [if_pos hcd] at herr
      by_cases hall : all_equal
          (b.devices.map (fun d => if d = device then hours
            else b.state d)) = true
      · rw [if_pos hall] at herr
        exact absurd herr (by simp)
      · rw [if_neg hall] at herr
        exact absurd herr (by simp)
    · rw [if_neg hcd]
      by_cases hex : ¬ (check_exists (check_dir c (fs.div b.topic)).2
          (fs.div b.topic)).1 = true
      · rw [if_pos hex]
        simp
      · rw [if_neg hex]
        simp

/-- Witness for C10's theorem: a power update into a missing target over
`T8` and a timer update into a missing target over `T7` both error while
keeping the new state. -/
theorem state_write_survives_error_wit :
    (handle_power pw0 fs8 Dev2.X "ON" []).1.state Dev2.X =
      decide (("ON" : String) = "ON") ∧
    (handle_timer tm0 fs7 Dev2.X "5" []).1.state Dev2.X = 5 :=
  ⟨state_write_survives_error.1 Dev2 pw0 fs8 Dev2.X "ON" []
     (.notFound "stat/T/POWER") rfl,
   state_write_survives_error.2 Dev2 tm0 fs7 Dev2.X "5" []
     (.notFound "stat/T/TIMER1/unmarshalled") 5 rfl rfl⟩

/-! ### C1 -/

/-- A tree routing topic `t` to a single named handler `h`. -/
def T1 : TreeItem := .dir [("t", .dir [("h", .leaf 0)])]

/-- The root path over `T1`. -/
def fs1 : MQTTPath := ⟨0, T1, []⟩

/-- A timer behaviour whose target topic does not exist in `T1`. -/
def timer1 : TimerStatus Dev2 := TimerStatus.init Dev2 [Dev2.X, Dev2.Y] "T" 1

/-- The handler environment wiring every handler id to the timer
behaviour's `get_handler(X)` closure (state as at process start). -/
def henv1 : HEnv := fun _ msg =>
  match handle_timer timer1 fs1 Dev2.X msg.payload [] with
  | (_, _, .ok pub) => .ok [pub]
  | (_, _, .error e) => .error e

/-- The dispatch loop completes when every child's guarded invocation
succeeds. -/
theorem onMessageLoop_ok (henv : HEnv) (msg : Msg) :
    ∀ (children : List MQTTPath),
      (∀ child ∈ children, ∀ e, childRun henv msg child = .error e →
        e.isClassification = true) →
      ∃ pubs, onMessageLoop henv msg children = .ok pubs
  | [], _ => ⟨[], rfl⟩
  | child :: rest, hsafe => by
    have hrc : ∃ l, runChild henv msg child = .ok l := by
      unfold runChild
      by_cases hf : child.is_file = true
      · rw [if_pos hf]
        cases hcr : childRun henv msg child with
        | ok pubs => exact ⟨pubs, rfl⟩
        | error e =>
          have hcl := hsafe child (List.mem_cons_self _ _) e hcr
          refine ⟨[], ?_⟩
          show (if e.isClassification = true then Except.ok []
            else Except.error e) = Except.ok ([] : List Pub)
          rw [hcl]
          simp
      · rw [if_neg hf]
        exact ⟨[], rfl⟩
    obtain ⟨l, hl⟩ := hrc
    obtain ⟨more, hm⟩ := onMessageLoop_ok henv msg rest
      (fun c hc e he => hsafe c (List.mem_cons_of_mem _ hc) e he)
    refine ⟨l ++ more, ?_⟩
    unfold onMessageLoop
    rw [hl, hm]

/-- C1 (corrected): `on_message` catches exactly the classification
errors (`FileNotFoundError`, `NotADirectoryError`, `IsADirectoryError`)
around each handler invocation — such an error is logged, the remaining
children still run and the dispatch returns normally — but any other
exception raised by a handler invocation (e.g. a `ValueError` from a
non-integer payload in `handle_timer`) propagates out of `on_message`. -/
theorem dispatcher_fault_isolation :
    (∀ (henv : HEnv) (msg : Msg) (child : MQTTPath) (e : Err),
      childRun henv msg child = .error e → e.isClassification = true →
      runChild henv msg child = .ok []) ∧
    (∀ (henv : HEnv) (fs : MQTTPath) (msg : Msg)
       (children : List MQTTPath),
      (fs.div msg.topic).iterdir = .ok children →
      (∀ child ∈ children, ∀ e, childRun henv msg child = .error e →
        e.isClassification = true) →
      ∃ pubs, on_message henv fs msg = .ok pubs) := by
  constructor
  · intro henv msg child e herr hcl
    unfold runChild
    by_cases hf : child.is_file = true
    · rw [if_pos hf, herr]
      show (if e.isClassification = true then Except.ok []
        else Except.error e) = Except.ok ([] : List Pub)
      rw [hcl]
      simp
    · rw [if_neg hf]
  · intro henv fs msg children hiter hsafe
    obtain ⟨pubs, hp⟩ := onMessageLoop_ok henv msg children hsafe
    refine ⟨pubs, ?_⟩
    unfold on_message
    rw [hiter]
    exact hp

/-- Witness for C1's amended theorem: over `T1`, a `"5"` payload makes
the timer handler raise `FileNotFoundError` (its target topic is absent),
which the dispatcher catches, so dispatch returns normally. -/
theorem dispatcher_fault_isolation_wit :
    ∃ pubs, on_message henv1 fs1 ⟨"t", "5"⟩ = .ok pubs :=
  dispatcher_fault_isolation.2 henv1 fs1 ⟨"t", "5"⟩ [⟨0, T1, ["t", "h"]⟩]
    rfl
    (by
      intro child hmem e hce
      rw [List.mem_singleton] at hmem
      subst hmem
      have hc : childRun henv1 ⟨"t", "5"⟩ ⟨0, T1, ["t", "h"]⟩ =
          .error (.notFound "stat/T/TIMER1/unmarshalled") := rfl
      rw [hc] at hce
      cases hce
      rfl)

/-- C1 counterexample: a non-integer payload `"x"` makes `handle_timer`
raise `ValueError` inside `int(status)`; `on_message` does not catch it,
so the dispatch itself ends in that exception. -/
theorem dispatcher_fault_isolation_cex :
    on_message henv1 fs1 ⟨"t", "x"⟩ = .error (.valueError "x") := rfl

end Automqtt
